import Mathlib

/-!
Verification development for the leadfoot `Server.js` module: the wire-protocol
transport / response normalizer (`createHttpRequest` / `handleResponse`) and the
capability negotiation engine (`_fixSessionCapabilities`, `addCapabilities`,
`discoverFeatures`, `discoverDefects`).

The JavaScript source is shallowly embedded:
* JavaScript dynamic values are the inductive `JVal` (JSON numbers are modelled
  as `Int`; no claim depends on fractional values).
* The remote session is an oracle `Oracle : Nat → Cmd → Except PErr JVal`
  mapping the index of a wire call and the command to its outcome; promise
  chains become explicit sequencing that threads the call counter.
* `JSON.parse` and the status-code table (`./statusCodes`, an external
  collaborator of this module) are parameters of the normalizer; a parse
  function returning `none` models `JSON.parse` throwing.
-/

namespace Leadfoot

/-- JavaScript-like dynamic value.  `undefined` is the JavaScript `undefined` value, `elemRef` stands for
a remote element handle returned by element-lookup commands; object field lists
are in insertion order. -/
inductive JVal : Type where
  | undefined
  | null
  | bool (b : Bool)
  | num (n : Int)
  | str (s : String)
  | arr (elems : List JVal)
  | obj (fields : List (String × JVal))
  | elemRef (tag : String)

/-- JavaScript truthiness for the values used by this module (objects, arrays
and element handles are always truthy). -/
def truthy : JVal → Bool
  | .undefined => false
  | .null => false
  | .bool b => b
  | .num n => !(n == 0)
  | .str s => !(s == "")
  | .arr _ => true
  | .obj _ => true
  | .elemRef _ => true

/-- JavaScript strict equality `===` restricted to the forms the source
compares (primitives; two distinct object/array values are never compared with
`===` in this module, so reference equality is conservatively `false`). -/
def jsStrictEq : JVal → JVal → Bool
  | .undefined, .undefined => true
  | .null, .null => true
  | .bool a, .bool b => a == b
  | .num a, .num b => a == b
  | .str a, .str b => a == b
  | _, _ => false

/-- First-match lookup in a JavaScript object field list. -/
def fieldGet : List (String × JVal) → String → JVal
  | [], _ => .undefined
  | (k₁, v) :: rest, k => if k₁ = k then v else fieldGet rest k

/-- Property read `o[k]`: `undefined` when absent or when the receiver is not
an object. -/
def objGet : JVal → String → JVal
  | .obj fs, k => fieldGet fs k
  | _, _ => .undefined

/-- Property write on a field list: replace the first binding of the key, or
append a fresh binding (JavaScript insertion order). -/
def setField : List (String × JVal) → String → JVal → List (String × JVal)
  | [], k, v => [(k, v)]
  | (k₁, v₁) :: rest, k, v =>
    if k₁ = k then (k, v) :: rest else (k₁, v₁) :: setField rest k v

/-- Property assignment `o[k] = v` on an object value. -/
def objSet : JVal → String → JVal → JVal
  | .obj fs, k, v => .obj (setField fs k v)
  | x, _, _ => x

/-- The JavaScript `k in o` test (only ever applied to objects here). -/
def hasKey : JVal → String → Bool
  | .obj fs, k => fs.any (fun p => p.1 == k)
  | _, _ => false

/-- Substring test on character lists, the model of
`String.prototype.indexOf(needle) > -1`. -/
def charsHasInfix (needle : List Char) : List Char → Bool
  | [] => needle.isEmpty
  | c :: rest => needle.isPrefixOf (c :: rest) || charsHasInfix needle rest

/-- `s.indexOf(needle) > -1` for strings. -/
def strHasInfix (s needle : String) : Bool :=
  charsHasInfix needle.data s.data

/-- `s.indexOf(needle) === 0` for strings. -/
def strStartsWith (s needle : String) : Bool :=
  needle.data.isPrefixOf s.data

/-- The JavaScript test `v > 0` as applied to an envelope `status` field; the
source only ever meets numeric or absent statuses, so non-numbers are `false`
(`undefined > 0` is `false` in JavaScript). -/
def jsGtZero : JVal → Bool
  | .num n => decide (0 < n)
  | _ => false

/-! ## Response normalizer (`handleResponse`, Server.js lines 36-155) -/

/-- A raw HTTP response as the dojo request layer hands it to `handleResponse`:
`status` code, the `Content-Type` and `Location` headers (absent ↦ `none`,
matching `getHeader` returning `null`), and the body text. -/
structure RawResponse where
  status : Nat
  contentType : Option String
  location : Option String
  text : String

/-- The protocol error object built at the end of the failure branch of
`handleResponse` (the `screen` base64 decoding and the `request`/`response`
diagnostic attachments carry no information the claims mention and are not
modelled). -/
structure ProtoErr where
  name : String
  message : String
  status : JVal
  detail : JVal

/-- Outcome of normalization: a thrown `SyntaxError` from `JSON.parse`
(`parseFail`) or the constructed protocol error. -/
inductive NormFail : Type where
  | parseFail
  | proto (e : ProtoErr)

/-- The response has a JSON content type:
`responseType && responseType.indexOf('application/json') === 0`. -/
def jsonContentType (resp : RawResponse) : Bool :=
  match resp.contentType with
  | some ct => strStartsWith ct "application/json"
  | none => false

/-- The synthesized success envelope for a 204 No Content response
(Server.js lines 58-64). -/
def noContentData : JVal :=
  .obj [("status", .num 0), ("sessionId", .null), ("value", .null)]

/-- Envelope synthesized when no parseable body exists (Server.js lines 72-79):
status 9 for HTTP 404/501, else 13, with the raw body text as message. -/
def synthNoBody (httpStatus : Nat) (bodyText : String) : JVal :=
  .obj [("status", .num (if httpStatus = 404 ∨ httpStatus = 501 then 9 else 13)),
        ("value", .obj [("message", .str bodyText)])]

/-- `data.message.indexOf('cannot find command') > -1` (the ios-driver
message-sniffing test, Server.js line 85). -/
def msgSniff (d : JVal) : Bool :=
  match objGet d "message" with
  | .str m => strHasInfix m "cannot find command"
  | _ => false

/-- Envelope reinterpretation for the non-conformant `{message: ...}` shape
(Server.js lines 82-88). -/
def synthMessageOnly (httpStatus : Nat) (d : JVal) : JVal :=
  .obj [("status", .num (if httpStatus = 404 ∨ httpStatus = 501 ∨ msgSniff d = true then 9 else 13)),
        ("value", d)]

/-- Coercion rule for Appium (Server.js lines 94-96): HTTP 501 with envelope
status 13 is rewritten to 9. -/
def coerce501 (httpStatus : Nat) (d : JVal) : JVal :=
  if httpStatus == 501 && jsStrictEq (objGet d "status") (.num 13) then
    objSet d "status" (.num 9)
  else d

/-- `value.class` names an unsupported-operation exception
(Server.js lines 103-104). -/
def classIndicatesUnsupported (cl : JVal) : Bool :=
  match cl with
  | .str s => strHasInfix s "UnsupportedOperationException" ||
              strHasInfix s "UnsupportedCommandException"
  | _ => false

/-- Coercion rule for FirefoxDriver (Server.js lines 102-107): envelope status
13 whose `value.class` names an unsupported-operation exception is rewritten
to 9. -/
def coerceClass (d : JVal) : JVal :=
  if jsStrictEq (objGet d "status") (.num 13) && truthy (objGet d "value") &&
      truthy (objGet (objGet d "value") "class") &&
      classIndicatesUnsupported (objGet (objGet d "value") "class") then
    objSet d "status" (.num 9)
  else d

/-- `value.message` names an unknown command (Server.js lines 114-115); the
source reads `.indexOf` off the message without a guard, which only meets
string messages in practice, so non-strings are `false` here. -/
def msg500 (v : JVal) : Bool :=
  match objGet v "message" with
  | .str m => strHasInfix m "Command not found" || strHasInfix m "Unknown command"
  | _ => false

/-- Coercion rule for InternetExplorerDriver/SafariDriver (Server.js lines
112-119): HTTP 500 with a message naming an unknown command is rewritten
to 9. -/
def coerce500 (httpStatus : Nat) (d : JVal) : JVal :=
  if httpStatus == 500 && truthy (objGet d "value") && msg500 (objGet d "value") then
    objSet d "status" (.num 9)
  else d

/-- The failure test of Server.js line 65:
`response.status >= 400 || (data && data.status > 0)`. -/
def envFailure (httpStatus : Nat) (data0 : Option JVal) : Bool :=
  decide (400 ≤ httpStatus) ||
    (match data0 with
     | some d => truthy d && jsGtZero (objGet d "status")
     | none => false)

/-- Constructing the thrown error object (Server.js lines 121-151): name and
base message from the status-code table, overridden by `value.message` when
present, then prefixed with the method, URL and request body. -/
def buildProtoErr (statusCodes : Int → Option (String × String))
    (method url : String) (requestData : Option String) (d : JVal) : ProtoErr :=
  let base : String × String :=
    match objGet d "status" with
    | .num s =>
      match statusCodes s with
      | some p => p
      | none => ("Error", "")
    | _ => ("Error", "")
  let msg : String :=
    match objGet (objGet d "value") "message" with
    | .str m => if m == "" then base.2 else m
    | _ => base.2
  { name := base.1,
    message := "[" ++ method ++ " " ++ url ++
      (match requestData with
       | some body => " / " ++ body
       | none => "") ++ "] " ++ msg,
    status := objGet d "status",
    detail := objGet d "value" }

/-- The body of `handleResponse` after redirect following (Server.js lines
47-155): parse a JSON body when the content type says so, synthesize the 204
success envelope, and otherwise classify failures through the quirk-correction
rules.  `parse s = none` models `JSON.parse` throwing. -/
def normalize (statusCodes : Int → Option (String × String))
    (parse : String → Option JVal) (method url : String)
    (requestData : Option String) (resp : RawResponse) : Except NormFail JVal :=
  let parsed : Except NormFail (Option JVal) :=
    if jsonContentType resp && !(resp.text == "") then
      match parse resp.text with
      | some d => .ok (some d)
      | none => .error .parseFail
    else .ok none
  match parsed with
  | .error f => .error f
  | .ok data0 =>
    if resp.status = 204 then .ok noContentData
    else if envFailure resp.status data0 then
      let d1 : JVal :=
        match data0 with
        | none => synthNoBody resp.status resp.text
        | some d =>
          if !truthy d then synthNoBody resp.status resp.text
          else if !truthy (objGet d "value") && hasKey d "message" then
            synthMessageOnly resp.status d
          else d
      .error (.proto (buildProtoErr statusCodes method url requestData
        (coerce500 resp.status (coerceClass (coerce501 resp.status d1)))))
    else
      .ok (match data0 with
           | some d => d
           | none => .undefined)

/-- Whether a response triggers the redirect-following branch of
`handleResponse` (Server.js line 41): HTTP 300-399 and a truthy `Location`
header. -/
def isRedirect (resp : RawResponse) : Bool :=
  decide (300 ≤ resp.status) && decide (resp.status < 400) &&
    (match resp.location with
     | some loc => !(loc == "")
     | none => false)

/-- Redirect-following wrapper of `handleResponse` (Server.js lines 41-45):
a 300-399 response with a truthy `Location` header triggers a follow-up GET to
that location and recursion into response handling; the source recursion is
unbounded, so `fuel` bounds it and `none` models non-termination.  The first
component collects the locations fetched by follow-up GETs, in order (every
follow-up request uses the GET method, as in the source). -/
def handleAll (fetch : String → RawResponse)
    (statusCodes : Int → Option (String × String)) (parse : String → Option JVal)
    (method url : String) (requestData : Option String) :
    Nat → RawResponse → Option (List String × Except NormFail JVal)
  | 0, _ => none
  | fuel + 1, resp =>
    if isRedirect resp then
      match resp.location with
      | some loc =>
        match handleAll fetch statusCodes parse method url requestData fuel (fetch loc) with
        | some (gets, r) => some (loc :: gets, r)
        | none => none
      | none => none
    else
      some ([], normalize statusCodes parse method url requestData resp)

/-! ## Request URL construction (`createHttpRequest`, Server.js lines 10-15) -/

/-- The JavaScript regex character class `\d`. -/
def isDigitChar (c : Char) : Bool :=
  decide ('0' ≤ c) && decide (c ≤ '9')

/-- Hex digit for percent-encoding (uppercase, as `encodeURIComponent`
produces). -/
def hexDigitChar (n : Nat) : Char :=
  if n < 10 then Char.ofNat (48 + n) else Char.ofNat (55 + n)

/-- A byte that `encodeURIComponent` leaves unescaped: ASCII alphanumerics and
`- _ . ! ~ * ' ( )`. -/
def isUnreservedByte (b : Nat) : Bool :=
  (decide (65 ≤ b) && decide (b ≤ 90)) || (decide (97 ≤ b) && decide (b ≤ 122)) ||
  (decide (48 ≤ b) && decide (b ≤ 57)) ||
  b == 45 || b == 95 || b == 46 || b == 33 || b == 126 ||
  b == 42 || b == 39 || b == 40 || b == 41

/-- Percent-escape of one UTF-8 byte. -/
def escapeByte (b : Nat) : List Char :=
  ['%', hexDigitChar (b / 16), hexDigitChar (b % 16)]

/-- The platform `encodeURIComponent`: UTF-8 encode, keep unreserved bytes,
percent-escape the rest. -/
def encodeURIComponentJS (s : String) : String :=
  ⟨(s.toUTF8.data.toList.map UInt8.toNat).foldr
    (fun b acc => (if isUnreservedByte b then [Char.ofNat b] else escapeByte b) ++ acc) []⟩

/-- The value substituted for placeholder digit `c`: `pathParts[index]`, where
indexing past the array yields `undefined`, which `encodeURIComponent` coerces
to the string `"undefined"`. -/
def argStr (pathParts : List String) (c : Char) : String :=
  match pathParts.get? (c.toNat - 48) with
  | some s => s
  | none => "undefined"

/-- `path.replace(/\$(\d)/, ...)` (Server.js line 13): the regex has no global
flag, so only the first `$digit` occurrence is replaced, with the
percent-encoding of the corresponding positional argument. -/
def substFirst (pathParts : List String) : List Char → List Char
  | [] => []
  | [a] => [a]
  | a :: c :: rest =>
    if a == '$' && isDigitChar c then (encodeURIComponentJS (argStr pathParts c)).data ++ rest
    else a :: substFirst pathParts (c :: rest)

/-- `var url = this.url + path.replace(/\$(\d)/, ...)` (Server.js line 13). -/
def buildRequestUrl (serverUrl path : String) (pathParts : List String) : String :=
  serverUrl ++ ⟨substFirst pathParts path.data⟩

/-- A character list containing no `$digit` placeholder occurrence. -/
def pairFree : List Char → Bool
  | a :: c :: rest => !(a == '$' && isDigitChar c) && pairFree (c :: rest)
  | _ => true

/-! ## Capability negotiation engine (`_fixSessionCapabilities`, Server.js
lines 188-591)

The remote session is an oracle from call index and command to outcome; each
probe is the sequencing of its wire calls with the callbacks the source
attaches.  Errors carry the fields the probe callbacks inspect (`error.name`,
`error.message`, `error.response.text`). -/

/-- The error object a rejected session command carries, restricted to the
fields probe callbacks read. -/
structure PErr where
  name : String
  message : String
  responseText : String

/-- One wire command of the session interface consumed by the probes.
`sleep` is the `util.sleep` delay (it cannot fail); the `elem...` commands are
the element-handle methods. -/
inductive Cmd : Type where
  | get (url : String)
  | execute (script : String)
  | executeAsync (script : String)
  | getOrientation
  | getGeolocation
  | getLocalStorageLength
  | getApplicationCacheStatus
  | takeScreenshot
  | doubleClick
  | longTap (target : JVal)
  | getWindowSize
  | setWindowSize (w h : JVal)
  | getPageTitle
  | getElementByTagName (tag : String)
  | getElementById (id : String)
  | elemGetTagName (el : JVal)
  | elemGetAttribute (el : JVal) (attr : String)
  | elemIsDisplayed (el : JVal)
  | elemGetPosition (el : JVal)
  | elemGetSize (el : JVal)
  | clearCookies
  | setCookie (name value : String)
  | deleteCookie (name : String)
  | getCookies
  | getAvailableLogTypes
  | moveMouseTo (el : JVal)
  | pressFinger (x y : Int)
  | touchScrollXY (x y : Int)
  | touchScrollEl (el : JVal) (x y : Int)
  | flickFinger (x y : Int)
  | refresh
  | sleep (ms : Nat)

/-- The remote session: outcome of the `n`-th wire call when it is command
`c`.  Indexing by call count lets distinct executions of the same command
(e.g. the two blank-page navigations) have distinct outcomes. -/
def Oracle : Type := Nat → Cmd → Except PErr JVal

/-- The session's capability map (`session.capabilities`), a JavaScript object
in insertion order. -/
def Caps : Type := List (String × JVal)

/-- Capability read `capabilities[k]` (`undefined` when absent). -/
def capGet (c : Caps) (k : String) : JVal :=
  fieldGet c k

/-- The JavaScript `k in capabilities` test. -/
def hasCapKey (c : Caps) (k : String) : Bool :=
  c.any (fun p => p.1 == k)

/-- Result of running one probe computation: the advanced call counter, the
wire calls issued (with their indices), and the outcome. -/
structure PrbOut (α : Type) where
  time : Nat
  calls : List (Nat × Cmd)
  res : Except PErr α

/-- A probe computation: reads the (current) capability map, threads the call
counter through the oracle.  Probes never write capabilities — only
`addCapabilities` does, as in the source. -/
def Prb (α : Type) : Type := Caps → Nat → Oracle → PrbOut α

/-- A promise resolved with a value. -/
def Prb.pureP (a : α) : Prb α := fun _ n _ => ⟨n, [], .ok a⟩

/-- Promise sequencing `p.then(f)`: a rejection of `p` skips `f` and
propagates. -/
def Prb.bindP (p : Prb α) (f : α → Prb β) : Prb β := fun c n o =>
  match p c n o with
  | ⟨n', cs, .ok a⟩ =>
    let r := f a c n' o
    ⟨r.time, cs ++ r.calls, r.res⟩
  | ⟨n', cs, .error e⟩ => ⟨n', cs, .error e⟩

/-- `p.then(onOk, onErr)`: both outcomes are handled. -/
def Prb.thenBoth (p : Prb α) (onOk : α → Prb β) (onErr : PErr → Prb β) : Prb β :=
  fun c n o =>
  match p c n o with
  | ⟨n', cs, .ok a⟩ =>
    let r := onOk a c n' o
    ⟨r.time, cs ++ r.calls, r.res⟩
  | ⟨n', cs, .error e⟩ =>
    let r := onErr e c n' o
    ⟨r.time, cs ++ r.calls, r.res⟩

/-- `p.otherwise(h)`: handle only rejection. -/
def Prb.otherwiseP (p : Prb α) (h : PErr → Prb α) : Prb α :=
  Prb.thenBoth p Prb.pureP h

/-- Issue one wire command. -/
def Prb.call (cmd : Cmd) : Prb JVal := fun _ n o => ⟨n + 1, [(n, cmd)], o n cmd⟩

/-- Read the current capability map (a closure read of `capabilities`). -/
def Prb.readCaps : Prb Caps := fun c n _ => ⟨n, [], .ok c⟩

/-- `util.sleep(ms)`: consumes a step, never fails. -/
def Prb.sleepCall (ms : Nat) : Prb JVal := fun _ n _ => ⟨n + 1, [(n, Cmd.sleep ms)], .ok .null⟩

/-- `maybeSupported` (Server.js line 194): `error.name !== 'UnknownCommand'`. -/
def maybeSupportedB (e : PErr) : Bool :=
  !(e.name == "UnknownCommand")

/-- The `get(page)` helper of `_fixSessionCapabilities` (Server.js lines
234-242): navigate to a data URI unless `supportsNavigationDataUris` is
exactly `false`, in which case navigate to `about:blank` and
`document.write` the page. -/
def getPage (page : String) : Prb JVal :=
  Prb.bindP Prb.readCaps (fun caps =>
    if !jsStrictEq (capGet caps "supportsNavigationDataUris") (.bool false) then
      Prb.call (.get ("data:text/html;charset=utf-8," ++ encodeURIComponentJS page))
    else
      Prb.bindP (Prb.call (.get "about:blank")) (fun _ =>
        Prb.call (.execute "document.write(arguments[0]);")))

/-! ### Feature probes (`discoverFeatures`, Server.js lines 244-338) -/

/-- `session.getOrientation().then(supported, unsupported)`. -/
def rotatableProbe : Prb JVal :=
  Prb.thenBoth (Prb.call .getOrientation)
    (fun _ => Prb.pureP (.bool true)) (fun _ => Prb.pureP (.bool false))

/-- `session.getGeolocation()` probe with its custom errback
(Server.js lines 273-277). -/
def locationContextProbe : Prb JVal :=
  Prb.thenBoth (Prb.call .getGeolocation)
    (fun _ => Prb.pureP (.bool true))
    (fun e => Prb.pureP (.bool (!(e.name == "UnknownCommand") &&
      !strHasInfix e.message "not mapped : GET_LOCATION")))

/-- `session.getLocalStorageLength().then(supported, maybeSupported)`. -/
def webStorageProbe : Prb JVal :=
  Prb.thenBoth (Prb.call .getLocalStorageLength)
    (fun _ => Prb.pureP (.bool true)) (fun e => Prb.pureP (.bool (maybeSupportedB e)))

/-- `session.getApplicationCacheStatus().then(supported, maybeSupported)`. -/
def appCacheProbe : Prb JVal :=
  Prb.thenBoth (Prb.call .getApplicationCacheStatus)
    (fun _ => Prb.pureP (.bool true)) (fun e => Prb.pureP (.bool (maybeSupportedB e)))

/-- `session.takeScreenshot().then(supported, unsupported)`. -/
def takesScreenshotProbe : Prb JVal :=
  Prb.thenBoth (Prb.call .takeScreenshot)
    (fun _ => Prb.pureP (.bool true)) (fun _ => Prb.pureP (.bool false))

/-- `session.executeAsync('arguments[0](true);').otherwise(unsupported)`: on
success the capability value is the script's own result. -/
def supportsExecuteAsyncProbe : Prb JVal :=
  Prb.otherwiseP (Prb.call (.executeAsync "arguments[0](true);"))
    (fun _ => Prb.pureP (.bool false))

/-- `session.doubleClick().then(supported, maybeSupported)`. -/
def mouseEnabledProbe : Prb JVal :=
  Prb.thenBoth (Prb.call .doubleClick)
    (fun _ => Prb.pureP (.bool true)) (fun e => Prb.pureP (.bool (maybeSupportedB e)))

/-- `session.longTap().then(supported, maybeSupported)` (no target argument in
the feature probe). -/
def touchEnabledProbe : Prb JVal :=
  Prb.thenBoth (Prb.call (.longTap .undefined))
    (fun _ => Prb.pureP (.bool true)) (fun e => Prb.pureP (.bool (maybeSupportedB e)))

/-- `getWindowSize` then `setWindowSize` back, `.then(supported, unsupported)`
(Server.js lines 313-317). -/
def dynamicViewportProbe : Prb JVal :=
  Prb.thenBoth
    (Prb.bindP (Prb.call .getWindowSize) (fun sz =>
      Prb.call (.setWindowSize (objGet sz "width") (objGet sz "height"))))
    (fun _ => Prb.pureP (.bool true)) (fun _ => Prb.pureP (.bool false))

/-- The CSS-transform test page (Server.js line 329), shared by the feature
thunk and the `brokenCssTransformedSize` defect thunk. -/
def cssPage : String :=
  "<!DOCTYPE html><style>#a\x7bwidth:8px;height:8px;-ms-transform:scale(0.5);-moz-transform:scale(0.5);-webkit-transform:scale(0.5);transform:scale(0.5);\x7d</style><div id=\"a\"></div>"

/-- The `supportsNavigationDataUris` deferred thunk (Server.js lines 319-325). -/
def navDataUrisThunk : Prb JVal :=
  Prb.otherwiseP
    (Prb.bindP (getPage "<!DOCTYPE html><title>a</title>") (fun _ =>
      Prb.bindP (Prb.call .getPageTitle) (fun t =>
        Prb.pureP (.bool (jsStrictEq t (.str "a"))))))
    (fun _ => Prb.pureP (.bool false))

/-- The `supportsCssTransforms` deferred thunk (Server.js lines 327-335); the
injected function is serialized, here named by its body's first statement.
On success the capability value is the script's boolean result. -/
def cssTransformsThunk : Prb JVal :=
  Prb.otherwiseP
    (Prb.bindP (getPage cssPage) (fun _ =>
      Prb.call (.execute "var bbox = document.getElementById(\"a\").getBoundingClientRect(); return bbox.right - bbox.left === 4;")))
    (fun _ => Prb.pureP (.bool false))

/-! ### Defect probes (`discoverDefects`, Server.js lines 340-578) -/

/-- `capabilities.initialBrowserUrl || 'about:blank'` (Server.js line 370);
the capability, when present, is a URL string. -/
def initialUrl (caps : Caps) : String :=
  match capGet caps "initialBrowserUrl" with
  | .str s => if s == "" then "about:blank" else s
  | _ => "about:blank"

/-- `cookies.length` truthiness on the array `getCookies` resolves with. -/
def jvNonEmptyArr : JVal → Bool
  | .arr xs => !xs.isEmpty
  | _ => false

/-- The cookie round-trip inside `brokenDeleteCookie` before its errback
(Server.js lines 370-384). -/
def brokenDeleteCookieCore : Prb JVal :=
  Prb.bindP Prb.readCaps (fun caps =>
    Prb.bindP (Prb.call (.get (initialUrl caps))) (fun _ =>
      Prb.bindP (Prb.call .clearCookies) (fun _ =>
        Prb.bindP (Prb.call (.setCookie "foo" "foo")) (fun _ =>
          Prb.bindP (Prb.call (.deleteCookie "foo")) (fun _ =>
            Prb.bindP (Prb.call .getCookies) (fun cookies =>
              Prb.pureP (.bool (jvNonEmptyArr cookies))))))))

/-- The `brokenDeleteCookie` deferred thunk (Server.js lines 367-397): the
errback sniffs the ios-driver protocol bug, and the trailing `clearCookies`
cleanup preserves the verdict on either outcome (`always`). -/
def brokenDeleteCookieThunk : Prb JVal :=
  Prb.bindP
    (Prb.otherwiseP brokenDeleteCookieCore
      (fun e => Prb.pureP (.bool (!strHasInfix e.message "bug.unknown protocol"))))
    (fun isBroken =>
      Prb.thenBoth (Prb.call .clearCookies)
        (fun _ => Prb.pureP isBroken) (fun _ => Prb.pureP isBroken))

/-- `brokenHtmlTagName` immediate probe (Server.js lines 401-405). -/
def brokenHtmlTagNameProbe : Prb JVal :=
  Prb.otherwiseP
    (Prb.bindP (Prb.call (.getElementByTagName "body")) (fun el =>
      Prb.bindP (Prb.call (.elemGetTagName el)) (fun tag =>
        Prb.pureP (.bool (!jsStrictEq tag (.str "body"))))))
    (fun _ => Prb.pureP (.bool true))

/-- `brokenNullGetAttribute` immediate probe (Server.js lines 409-413). -/
def brokenNullGetAttributeProbe : Prb JVal :=
  Prb.otherwiseP
    (Prb.bindP (Prb.call (.getElementByTagName "body")) (fun el =>
      Prb.bindP (Prb.call (.elemGetAttribute el "nonexisting")) (fun v =>
        Prb.pureP (.bool (!jsStrictEq v .null)))))
    (fun _ => Prb.pureP (.bool true))

/-- `brokenExecuteElementReturn` deferred thunk (Server.js lines 416-422):
`element && element.getTagName()`, then `.then(works, broken)`. -/
def brokenExecuteElementReturnThunk : Prb JVal :=
  Prb.thenBoth
    (Prb.bindP (getPage "<!DOCTYPE html><div id=\"a\"></div>") (fun _ =>
      Prb.bindP (Prb.call (.execute "return document.getElementById(\"a\");")) (fun el =>
        if truthy el then Prb.call (.elemGetTagName el) else Prb.pureP el)))
    (fun _ => Prb.pureP (.bool false)) (fun _ => Prb.pureP (.bool true))

/-- `brokenElementDisplayedOpacity` deferred thunk (Server.js lines 425-431):
on success the capability value is the raw `isDisplayed` result. -/
def brokenElementDisplayedOpacityThunk : Prb JVal :=
  Prb.otherwiseP
    (Prb.bindP (getPage "<!DOCTYPE html><div id=\"a\" style=\"opacity: 0;\">a</div>") (fun _ =>
      Prb.bindP (Prb.call (.getElementById "a")) (fun el =>
        Prb.call (.elemIsDisplayed el))))
    (fun _ => Prb.pureP (.bool true))

/-- `fixedLogTypes` immediate probe (Server.js lines 437-443): success means
no fixing is needed (`false`); the errback hardcodes selendroid's log types
when the failure body is empty. -/
def fixedLogTypesProbe : Prb JVal :=
  Prb.thenBoth (Prb.call .getAvailableLogTypes)
    (fun _ => Prb.pureP (.bool false))
    (fun e => Prb.bindP Prb.readCaps (fun caps =>
      if jsStrictEq (capGet caps "browserName") (.str "selendroid") && (e.responseText == "") then
        Prb.pureP (.arr [.str "logcat"])
      else Prb.pureP (.arr [])))

/-- The double-click test page (Server.js line 455). -/
def dcPage : String :=
  "<!DOCTYPE html><script>counter = 0; var d = document; d.onclick = d.onmousedown = d.onmouseup = function () \x7b counter++; \x7d;</script>"

/-- One navigate-and-measure round of the `brokenDoubleClick` probe
(Server.js lines 455-464): load the counting page, find `body`, move the
mouse onto it, sleep 100ms, double-click, and read the event counter. -/
def doubleClickRound : Prb JVal :=
  Prb.bindP (getPage dcPage) (fun _ =>
    Prb.bindP (Prb.call (.getElementByTagName "body")) (fun el =>
      Prb.bindP (Prb.call (.moveMouseTo el)) (fun _ =>
        Prb.bindP (Prb.sleepCall 100) (fun _ =>
          Prb.bindP (Prb.call .doubleClick) (fun _ =>
            Prb.call (.execute "return counter;"))))))

/-- The error standing in for the unbounded retry recursion running out of the
model's fuel (the source recursion has no bound; see the spec's open
question). -/
def retryFuelErr : PErr :=
  ⟨"ModelFuelExhausted", "brokenDoubleClick retry fuel exhausted", ""⟩

/-- The `brokenDoubleClick` deferred thunk (Server.js lines 453-473): a
counter read of exactly 0 retries the whole round (`return retry();`), a
nonzero read yields the verdict `counter !== 6`, and any operation failure is
`broken`.  The source recursion is unbounded; `fuel` bounds it in the model. -/
def brokenDoubleClickThunk : Nat → Prb JVal
  | 0 => fun _ n _ => ⟨n, [], .error retryFuelErr⟩
  | fuel + 1 =>
    Prb.otherwiseP
      (Prb.bindP doubleClickRound (fun counter =>
        if jsStrictEq counter (.num 0) then brokenDoubleClickThunk fuel
        else Prb.pureP (.bool (!jsStrictEq counter (.num 6)))))
      (fun _ => Prb.pureP (.bool true))

/-- `brokenLongTap` immediate probe (Server.js lines 478-480). -/
def brokenLongTapProbe : Prb JVal :=
  Prb.thenBoth
    (Prb.bindP (Prb.call (.getElementByTagName "body")) (fun el =>
      Prb.call (.longTap el)))
    (fun _ => Prb.pureP (.bool false)) (fun _ => Prb.pureP (.bool true))

/-- `brokenMoveFinger` immediate probe (Server.js lines 484-486). -/
def brokenMoveFingerProbe : Prb JVal :=
  Prb.thenBoth (Prb.call (.pressFinger 0 0))
    (fun _ => Prb.pureP (.bool false))
    (fun e => Prb.pureP (.bool (e.name == "UnknownCommand" ||
      strHasInfix e.message "need to specify the JS")))

/-- The scroll test page (Server.js line 488). -/
def scrollTestUrl : String :=
  "<!DOCTYPE html><div id=\"a\" style=\"margin: 3000px;\"></div>"

/-- `brokenTouchScroll` deferred thunk (Server.js lines 492-509). -/
def brokenTouchScrollThunk : Prb JVal :=
  Prb.otherwiseP
    (Prb.bindP (getPage scrollTestUrl) (fun _ =>
      Prb.bindP (Prb.call (.touchScrollXY 0 20)) (fun _ =>
        Prb.bindP (Prb.call (.execute "return window.scrollY !== 20;")) (fun isBroken =>
          if truthy isBroken then Prb.pureP (.bool true)
          else
            Prb.bindP (Prb.call (.getElementById "a")) (fun el =>
              Prb.bindP (Prb.call (.touchScrollEl el 0 0)) (fun _ =>
                Prb.call (.execute "return window.scrollY !== 3000;")))))))
    (fun _ => Prb.pureP (.bool true))

/-- `brokenFlickFinger` deferred thunk (Server.js lines 513-520). -/
def brokenFlickFingerThunk : Prb JVal :=
  Prb.otherwiseP
    (Prb.bindP (getPage scrollTestUrl) (fun _ =>
      Prb.bindP (Prb.call (.flickFinger 0 400)) (fun _ =>
        Prb.call (.execute "return window.scrollY === 0;"))))
    (fun _ => Prb.pureP (.bool true))

/-- `brokenElementPosition` deferred thunk (Server.js lines 524-532). -/
def brokenElementPositionThunk : Prb JVal :=
  Prb.otherwiseP
    (Prb.bindP (getPage scrollTestUrl) (fun _ =>
      Prb.bindP (Prb.call (.getElementById "a")) (fun el =>
        Prb.bindP (Prb.call (.elemGetPosition el)) (fun p =>
          Prb.pureP (.bool (!jsStrictEq (objGet p "x") (.num 3000) ||
            !jsStrictEq (objGet p "y") (.num 3000)))))))
    (fun _ => Prb.pureP (.bool true))

/-- `brokenRefresh` deferred thunk (Server.js lines 535-559).  The source
races `session.refresh()` against a 2000ms timer and cancels the loser; the
race is real time, so the model folds it into the single `refresh` call:
completion means not broken, rejection (including cancellation after the
timer fired first) means broken. -/
def brokenRefreshThunk : Prb JVal :=
  Prb.otherwiseP
    (Prb.bindP (Prb.call (.get "about:blank?1")) (fun _ =>
      Prb.thenBoth (Prb.call .refresh)
        (fun _ => Prb.pureP (.bool false)) (fun _ => Prb.pureP (.bool true))))
    (fun _ => Prb.pureP (.bool true))

/-- `brokenCssTransformedSize` deferred thunk (Server.js lines 563-574). -/
def brokenCssTransformedSizeThunk : Prb JVal :=
  Prb.otherwiseP
    (Prb.bindP (getPage cssPage) (fun _ =>
      Prb.bindP (Prb.call (.execute "return document.getElementById(\"a\");")) (fun el =>
        Prb.bindP (Prb.call (.elemGetSize el)) (fun d =>
          Prb.pureP (.bool (!jsStrictEq (objGet d "width") (.num 4) ||
            !jsStrictEq (objGet d "height") (.num 4)))))))
    (fun _ => Prb.pureP (.bool true))

/-! ### Catalogs and the batch executor -/

/-- One `testedCapabilities` entry as built by the discover functions:
`plain` values (e.g. `brokenWindowSwitch`), in-flight promises (Immediate
probes), and function values (Deferred probes). -/
inductive CatEntry : Type where
  | plain (v : JVal)
  | prom (p : Prb JVal)
  | thunk (t : Prb JVal)

/-- A `testedCapabilities` entry after `whenAll` resolution, as
`addCapabilities` receives it: a settled value or a still-unevaluated
function. -/
inductive AddVal : Type where
  | v (val : JVal)
  | fn (t : Prb JVal)

/-- Events of a negotiation run: wire commands, an Immediate probe settling
(its promise resolving inside `whenAll`), a Deferred thunk being invoked
(`value()`), a Deferred thunk resolving, and a capability write
(`capabilities[key] = value`). -/
inductive Ev : Type where
  | cmd (n : Nat) (c : Cmd)
  | settle (k : String)
  | defStart (k : String)
  | defEnd (k : String)
  | write (k : String) (v : JVal)

/-- Wire-call records as trace events. -/
def cmdEvs (l : List (Nat × Cmd)) : List Ev :=
  l.map (fun p => Ev.cmd p.1 p.2)

/-- Result of an executor phase: the capability map, the advanced call
counter, the event trace, and the outcome. -/
structure ExecOut (α : Type) where
  caps : Caps
  time : Nat
  events : List Ev
  res : Except PErr α

/-- The `whenAll(testedCapabilities)` step (dojo `promise/all` on the object,
Server.js lines 337/577): plain values and function values pass through
unchanged, promise values are awaited — resolving to their values, with the
whole step rejecting on the first probe rejection.  The concurrent Immediate
probes are linearized in catalog order; no ordering among them is claimed. -/
def whenAllRun (o : Oracle) : List (String × CatEntry) → Caps → Nat →
    ExecOut (List (String × AddVal))
  | [], caps, n => ⟨caps, n, [], .ok []⟩
  | (k, .plain v) :: rest, caps, n =>
    let r := whenAllRun o rest caps n
    ⟨caps, r.time, r.events, r.res.map (fun l => (k, AddVal.v v) :: l)⟩
  | (k, .prom p) :: rest, caps, n =>
    match p caps n o with
    | ⟨n', cs, .ok v⟩ =>
      let r := whenAllRun o rest caps n'
      ⟨caps, r.time, cmdEvs cs ++ Ev.settle k :: r.events,
        r.res.map (fun l => (k, AddVal.v v) :: l)⟩
    | ⟨n', cs, .error e⟩ => ⟨caps, n', cmdEvs cs, .error e⟩
  | (k, .thunk t) :: rest, caps, n =>
    let r := whenAllRun o rest caps n
    ⟨caps, r.time, r.events, r.res.map (fun l => (k, AddVal.fn t) :: l)⟩

/-- `addCapabilities` (Server.js lines 203-232): walk the keys in catalog
order; a plain value is written immediately; a function value is invoked and
awaited, its resolution written, and a rejection rejects the whole merge,
leaving the capabilities already written in place and never reaching later
keys. -/
def addCapabilities (o : Oracle) : List (String × AddVal) → Caps → Nat → ExecOut Unit
  | [], caps, n => ⟨caps, n, [], .ok ()⟩
  | (k, .v v) :: rest, caps, n =>
    let r := addCapabilities o rest (setField caps k v) n
    ⟨r.caps, r.time, Ev.write k v :: r.events, r.res⟩
  | (k, .fn t) :: rest, caps, n =>
    match t caps n o with
    | ⟨n', cs, .ok v⟩ =>
      let r := addCapabilities o rest (setField caps k v) n'
      ⟨r.caps, r.time, Ev.defStart k :: (cmdEvs cs ++ Ev.defEnd k :: Ev.write k v :: r.events), r.res⟩
    | ⟨n', cs, .error e⟩ =>
      ⟨caps, n', Ev.defStart k :: cmdEvs cs, .error e⟩

/-- The SafariDriver-on-Mac quirk test
(`capabilities.browserName === 'safari' && capabilities.platform === 'MAC'`,
Server.js lines 249 and 345). -/
def safariQuirk (caps : Caps) : Bool :=
  jsStrictEq (capGet caps "browserName") (.str "safari") &&
    jsStrictEq (capGet caps "platform") (.str "MAC")

/-- The hardcoded feature result set for SafariDriver on Mac
(Server.js lines 250-263), in source order. -/
def safariFeatureCaps : List (String × JVal) :=
  [("nativeEvents", .bool false),
   ("rotatable", .bool false),
   ("locationContextEnabled", .bool false),
   ("webStorageEnabled", .bool false),
   ("applicationCacheEnabled", .bool false),
   ("supportsNavigationDataUris", .bool true),
   ("supportsCssTransforms", .bool true),
   ("supportsExecuteAsync", .bool true),
   ("mouseEnabled", .bool true),
   ("touchEnabled", .bool false),
   ("dynamicViewport", .bool true)]

/-- The hardcoded defect result set for SafariDriver on Mac
(Server.js lines 346-364), in source order. -/
def safariDefectCaps : List (String × JVal) :=
  [("brokenDeleteCookie", .bool false),
   ("brokenExecuteElementReturn", .bool false),
   ("brokenElementDisplayedOpacity", .bool false),
   ("brokenWindowSwitch", .bool true),
   ("brokenDoubleClick", .bool false),
   ("brokenCssTransformedSize", .bool true),
   ("fixedLogTypes", .bool false),
   ("brokenHtmlTagName", .bool false),
   ("brokenNullGetAttribute", .bool false),
   ("brokenNavigation", .bool true),
   ("brokenMouseEvents", .bool true),
   ("brokenWindowPosition", .bool true),
   ("brokenSendKeys", .bool true),
   ("brokenSubmitElement", .bool true)]

/-- A hardcoded result object as the resolved entry list `addCapabilities`
receives. -/
def pureEntries (l : List (String × JVal)) : List (String × AddVal) :=
  l.map (fun p => (p.1, AddVal.v p.2))

/-- The feature catalog built by `discoverFeatures` outside the quirk branch
(Server.js lines 265-335), entries in source insertion order, guarded exactly
as in the source. -/
def featureCatalog (caps : Caps) : List (String × CatEntry) :=
  (if hasCapKey caps "rotatable" then [] else [("rotatable", CatEntry.prom rotatableProbe)]) ++
  (if truthy (capGet caps "locationContextEnabled") then
    [("locationContextEnabled", CatEntry.prom locationContextProbe)] else []) ++
  (if truthy (capGet caps "webStorageEnabled") then
    [("webStorageEnabled", CatEntry.prom webStorageProbe)] else []) ++
  (if truthy (capGet caps "applicationCacheEnabled") then
    [("applicationCacheEnabled", CatEntry.prom appCacheProbe)] else []) ++
  [("takesScreenshot", CatEntry.prom takesScreenshotProbe),
   ("supportsExecuteAsync", CatEntry.prom supportsExecuteAsyncProbe)] ++
  (if hasCapKey caps "mouseEnabled" then [] else [("mouseEnabled", CatEntry.prom mouseEnabledProbe)]) ++
  (if hasCapKey caps "touchEnabled" then [] else [("touchEnabled", CatEntry.prom touchEnabledProbe)]) ++
  (if hasCapKey caps "dynamicViewport" then [] else [("dynamicViewport", CatEntry.prom dynamicViewportProbe)]) ++
  [("supportsNavigationDataUris", CatEntry.thunk navDataUrisThunk),
   ("supportsCssTransforms", CatEntry.thunk cssTransformsThunk)]

/-- The defect catalog built by `discoverDefects` outside the quirk branch
(Server.js lines 366-577), entries in source insertion order, guarded exactly
as in the source; `fuel` bounds the `brokenDoubleClick` retry recursion. -/
def defectCatalog (fuel : Nat) (caps : Caps) : List (String × CatEntry) :=
  [("brokenDeleteCookie", CatEntry.thunk brokenDeleteCookieThunk),
   ("brokenHtmlTagName", CatEntry.prom brokenHtmlTagNameProbe),
   ("brokenNullGetAttribute", CatEntry.prom brokenNullGetAttributeProbe),
   ("brokenExecuteElementReturn", CatEntry.thunk brokenExecuteElementReturnThunk),
   ("brokenElementDisplayedOpacity", CatEntry.thunk brokenElementDisplayedOpacityThunk),
   ("fixedLogTypes", CatEntry.prom fixedLogTypesProbe),
   ("brokenWindowSwitch", CatEntry.plain (.bool (jsStrictEq (capGet caps "browserName") (.str "Safari") &&
     jsStrictEq (capGet caps "platformName") (.str "IOS"))))] ++
  (if truthy (capGet caps "mouseEnabled") then
    [("brokenDoubleClick", CatEntry.thunk (brokenDoubleClickThunk fuel))] else []) ++
  (if truthy (capGet caps "touchEnabled") then
    [("brokenLongTap", CatEntry.prom brokenLongTapProbe),
     ("brokenMoveFinger", CatEntry.prom brokenMoveFingerProbe),
     ("brokenTouchScroll", CatEntry.thunk brokenTouchScrollThunk),
     ("brokenFlickFinger", CatEntry.thunk brokenFlickFingerThunk),
     ("brokenElementPosition", CatEntry.thunk brokenElementPositionThunk),
     ("brokenRefresh", CatEntry.thunk brokenRefreshThunk)] else []) ++
  (if truthy (capGet caps "supportsCssTransforms") then
    [("brokenCssTransformedSize", CatEntry.thunk brokenCssTransformedSizeThunk)] else [])

/-- `discoverFeatures` (Server.js lines 244-338): the quirk branch returns the
hardcoded object immediately (issuing no commands); otherwise the catalog is
built (its Immediate probes go in flight) and awaited via `whenAll`. -/
def discoverFeatures (o : Oracle) (caps : Caps) (n : Nat) :
    ExecOut (List (String × AddVal)) :=
  if safariQuirk caps then ⟨caps, n, [], .ok (pureEntries safariFeatureCaps)⟩
  else whenAllRun o (featureCatalog caps) caps n

/-- `discoverDefects` (Server.js lines 340-578), with the same quirk
short-circuit. -/
def discoverDefects (o : Oracle) (fuel : Nat) (caps : Caps) (n : Nat) :
    ExecOut (List (String × AddVal)) :=
  if safariQuirk caps then ⟨caps, n, [], .ok (pureEntries safariDefectCaps)⟩
  else whenAllRun o (defectCatalog fuel caps) caps n

/-- The main promise chain of `_fixSessionCapabilities` before the trailing
`always` (Server.js lines 580-584):
`session.get('about:blank').then(discoverFeatures).then(addCapabilities).then(discoverDefects).then(addCapabilities)`. -/
def negotiationMain (o : Oracle) (fuel : Nat) (caps0 : Caps) (n0 : Nat) : ExecOut Unit :=
  match o n0 (.get "about:blank") with
  | .error e => ⟨caps0, n0 + 1, [.cmd n0 (.get "about:blank")], .error e⟩
  | .ok _ =>
    let f := discoverFeatures o caps0 (n0 + 1)
    let ev0 := Ev.cmd n0 (.get "about:blank") :: f.events
    match f.res with
    | .error e => ⟨caps0, f.time, ev0, .error e⟩
    | .ok tc =>
      let a1 := addCapabilities o tc caps0 f.time
      match a1.res with
      | .error e => ⟨a1.caps, a1.time, ev0 ++ a1.events, .error e⟩
      | .ok _ =>
        let d := discoverDefects o fuel a1.caps a1.time
        match d.res with
        | .error e => ⟨a1.caps, d.time, ev0 ++ a1.events ++ d.events, .error e⟩
        | .ok tc2 =>
          let a2 := addCapabilities o tc2 a1.caps d.time
          ⟨a2.caps, a2.time, ev0 ++ a1.events ++ d.events ++ a2.events, a2.res⟩

/-- `_fixSessionCapabilities` (Server.js lines 580-591): the main chain
followed by `.always(() => session.get('about:blank').then(() => session))` —
the trailing blank-page navigation runs regardless of how the main chain
settled, and the whole negotiation resolves with the same session (modelled by
its id `sid`) exactly when that trailing navigation succeeds. -/
def fixSessionCapabilities (o : Oracle) (fuel : Nat) (sid : Nat)
    (caps0 : Caps) (n0 : Nat) : ExecOut Nat :=
  let m := negotiationMain o fuel caps0 n0
  match o m.time (.get "about:blank") with
  | .ok _ => ⟨m.caps, m.time + 1, m.events ++ [.cmd m.time (.get "about:blank")], .ok sid⟩
  | .error e => ⟨m.caps, m.time + 1, m.events ++ [.cmd m.time (.get "about:blank")], .error e⟩

/-! ### Trace predicates for the execution-discipline claims -/

/-- Event classifiers. -/
def isSettleEv : Ev → Bool
  | .settle _ => true
  | _ => false

/-- Is a Deferred-probe start event. -/
def isDefStartEv : Ev → Bool
  | .defStart _ => true
  | _ => false

/-- Is a Deferred-probe lifecycle event (start or end). -/
def isDefEv : Ev → Bool
  | .defStart _ => true
  | .defEnd _ => true
  | _ => false

/-- Is a wire-command event. -/
def isCmdEv : Ev → Bool
  | .cmd _ _ => true
  | _ => false

/-- Is a capability-write event. -/
def isWriteEv : Ev → Bool
  | .write _ _ => true
  | _ => false

/-- The Deferred (function-valued) keys of a resolved entry list, in catalog
order. -/
def defKeys : List (String × AddVal) → List String
  | [] => []
  | (k, .fn _) :: rest => k :: defKeys rest
  | (_, .v _) :: rest => defKeys rest

/-- Checks that a stream of Deferred lifecycle events is strictly serialized
along the given key order: `start k, end k` pairs following the catalog's
Deferred keys in order, possibly truncated, with at most a final unmatched
`start` (a thunk whose rejection aborted the batch). -/
def serTrace : List String → List Ev → Bool
  | _, [] => true
  | k :: _, [Ev.defStart k₁] => k == k₁
  | k :: ks, Ev.defStart k₁ :: Ev.defEnd k₂ :: rest => k == k₁ && k == k₂ && serTrace ks rest
  | _, _ => false

/-- Repeated capability insertion, the effect of merging a hardcoded result
set. -/
def insertList (c : Caps) (l : List (String × JVal)) : Caps :=
  l.foldl (fun acc p => setField acc p.1 p.2) c

/-- The write events of merging a plain result set, in order. -/
def writeEvs (l : List (String × JVal)) : List Ev :=
  l.map (fun p => Ev.write p.1 p.2)

/-! ### Concrete fixtures for counterexamples and witnesses -/

/-- An oracle whose every call succeeds with `null`. -/
def allOkOracle : Oracle := fun _ _ => .ok JVal.null

/-- A two-entry batch: one Immediate probe and one Deferred thunk. -/
def c1Cat : List (String × CatEntry) :=
  [("a", CatEntry.prom (Prb.call Cmd.takeScreenshot)),
   ("b", CatEntry.thunk (Prb.call Cmd.refresh))]

/-- The resolved entries `whenAll` produces from `c1Cat` under
`allOkOracle`. -/
def c1Entries : List (String × AddVal) :=
  [("a", AddVal.v JVal.null), ("b", AddVal.fn (Prb.call Cmd.refresh))]

/-- A navigation failure. -/
def c2Err : PErr := ⟨"UnknownError", "initial navigation failed", ""⟩

/-- An oracle whose first call (the initial blank-page navigation) fails and
whose later calls all succeed. -/
def c2Oracle : Oracle := fun n _ => if n = 0 then .error c2Err else .ok JVal.null

/-- The ios-driver-shaped body: a `message` field and no `value` field. -/
def c3Body : String := "\x7b\"message\":\"cannot find command X\"\x7d"

/-- The parsed form of `c3Body`. -/
def c3Envelope : JVal := .obj [("message", .str "cannot find command X")]

/-- `JSON.parse` restricted to the strings this test feeds it. -/
def c3Parse : String → Option JVal :=
  fun s => if s = c3Body then some c3Envelope else none

/-- An HTTP 200 response carrying the ios-driver-shaped body. -/
def c3Resp : RawResponse :=
  { status := 200, contentType := some "application/json", location := none, text := c3Body }

/-- A 302 redirect whose follow-up is itself a redirect. -/
def c4Resp0 : RawResponse :=
  { status := 303, contentType := none, location := some "http://s/a", text := "" }

/-- The first follow-up response: again a redirect. -/
def c4RespA : RawResponse :=
  { status := 302, contentType := none, location := some "http://s/b", text := "" }

/-- The terminal follow-up response. -/
def c4RespB : RawResponse :=
  { status := 204, contentType := none, location := none, text := "" }

/-- The network for the redirect-chain test. -/
def c4Fetch : String → RawResponse :=
  fun u => if u = "http://s/a" then c4RespA else c4RespB

/-- An HTTP 204 response with a JSON content type and a body `JSON.parse`
throws on. -/
def c5Resp : RawResponse :=
  { status := 204, contentType := some "application/json", location := none, text := "!!!" }

/-- An HTTP 204 response whose JSON body parses. -/
def c5OkResp : RawResponse :=
  { status := 204, contentType := some "application/json", location := none, text := "\x7b\x7d" }

/-- `JSON.parse` restricted to the strings the 204 witness feeds it. -/
def c5Parse : String → Option JVal :=
  fun s => if s = "\x7b\x7d" then some (.obj []) else none

/-- Server-reported capabilities identifying SafariDriver on Mac. -/
def c6Caps : Caps :=
  [("browserName", JVal.str "safari"), ("platform", JVal.str "MAC")]

/-- An envelope whose status has already been rewritten to 9. -/
def c7Data : JVal := .obj [("status", .num 9)]

/-- An oracle for the double-click probe under which the counter reads 3 and
every other command succeeds. -/
def c8Oracle : Oracle := fun _ c =>
  match c with
  | Cmd.execute s => if s = "return counter;" then .ok (.num 3) else .ok JVal.null
  | _ => .ok JVal.null

/-- The wire calls of one `doubleClickRound` under `c8Oracle` from call
index 0. -/
def c8Calls : List (Nat × Cmd) :=
  [(0, Cmd.get ("data:text/html;charset=utf-8," ++ encodeURIComponentJS dcPage)),
   (1, Cmd.getElementByTagName "body"),
   (2, Cmd.moveMouseTo JVal.null),
   (3, Cmd.sleep 100),
   (4, Cmd.doubleClick),
   (5, Cmd.execute "return counter;")]

/-- The failure a cancelled/failed `refresh` call carries. -/
def c10Err : PErr := ⟨"UnknownError", "refresh failed", ""⟩

/-- An oracle failing exactly the `refresh` command. -/
def c10Oracle : Oracle := fun _ c =>
  match c with
  | Cmd.refresh => .error c10Err
  | _ => .ok JVal.null

/-- Entries merged before the failing thunk. -/
def c10Pre : List (String × AddVal) := [("x", AddVal.v (JVal.bool true))]

/-- Entries after the failing thunk, never reached. -/
def c10Post : List (String × AddVal) := [("z", AddVal.v (JVal.bool false))]

/-! ## Theorems -/

/-- C7: the error-status coercion rules — HTTP 501 with envelope status 13
rewritten to 9 (`coerce501`), and envelope status 13 with a `value.class`
naming `UnsupportedOperationException`/`UnsupportedCommandException` rewritten
to 9 (`coerceClass`) — are idempotent: on an envelope whose status is already
9 they change nothing, and the status stays 9 through both. -/
theorem c7_coercion_idempotent (httpStatus : Nat) (d : JVal)
    (h : objGet d "status" = JVal.num 9) :
    coerce501 httpStatus d = d ∧ coerceClass d = d ∧
      objGet (coerceClass (coerce501 httpStatus d)) "status" = JVal.num 9 := by
  have h1 : coerce501 httpStatus d = d := by
    unfold coerce501
    rw [h]
    simp [jsStrictEq]
  have h2 : coerceClass d = d := by
    unfold coerceClass
    rw [h]
    simp [jsStrictEq]
  refine ⟨h1, h2, ?_⟩
  rw [h1, h2, h]

/-- Witness for C7 at the concrete envelope `{status: 9}` under HTTP 501. -/
theorem c7_witness :
    objGet c7Data "status" = JVal.num 9 ∧
      (coerce501 501 c7Data = c7Data ∧ coerceClass c7Data = c7Data ∧
        objGet (coerceClass (coerce501 501 c7Data)) "status" = JVal.num 9) :=
  ⟨rfl, c7_coercion_idempotent 501 c7Data rfl⟩

/-- C3 counterexample: the claim says a 200 response with body
`{message: "cannot find command X"}` fails with protocol-error status 9, but
the failure test of Server.js line 65 (`status >= 400 || data.status > 0`)
does not fire — the body has no `status` field — so normalization succeeds,
returning the parsed body unchanged. -/
theorem c3_counterexample :
    normalize (fun _ => none) c3Parse "POST" "http://localhost:4444/wd/hub/session/1/url"
      none c3Resp = .ok c3Envelope := rfl

/-- C3 (amended): for a response whose HTTP status is below 400 and not 204
and whose parsed JSON body does not satisfy the failure test (in particular
the `{message: ...}` shape with no `status`/`value` fields at HTTP 200),
normalization succeeds with the parsed body unchanged; the message-sniffing
status-9 reinterpretation only ever runs inside the failure branch. -/
theorem c3_message_only_success (sc : Int → Option (String × String))
    (parse : String → Option JVal) (method url : String)
    (requestData : Option String) (resp : RawResponse) (d : JVal)
    (hjson : jsonContentType resp = true)
    (htext : (resp.text == "") = false)
    (hparse : parse resp.text = some d)
    (h204 : ¬ resp.status = 204)
    (hfail : envFailure resp.status (some d) = false) :
    normalize sc parse method url requestData resp = .ok d := by
  unfold normalize
  rw [hjson, htext, hparse]
  simp only [Bool.not_false, Bool.and_self, if_true]
  rw [if_neg h204, hfail]
  simp

/-- Witness for C3 at the concrete 200 response with the ios-driver body
shape. -/
theorem c3_witness :
    envFailure c3Resp.status (some c3Envelope) = false ∧
      normalize (fun _ => none) c3Parse "GET" "http://localhost:4444/wd/hub/status"
        none c3Resp = .ok c3Envelope :=
  ⟨rfl, c3_message_only_success _ _ _ _ _ _ _ rfl rfl rfl (by decide) rfl⟩

/-- C5 counterexample: the claim says every HTTP 204 response normalizes to
the synthesized success envelope regardless of body content, but
`handleResponse` runs `JSON.parse` before the 204 test (Server.js lines 50-52
versus 58), so a 204 response with a JSON content type and an unparseable body
makes normalization fail with the parse error instead. -/
theorem c5_counterexample :
    normalize (fun _ => none) (fun _ => none) "DELETE"
      "http://localhost:4444/wd/hub/session/1" none c5Resp = .error .parseFail := rfl

/-- C5 (amended): an HTTP 204 response normalizes to the synthesized
`{status: 0, sessionId: null, value: null}` success envelope regardless of
body content, provided the body parses whenever a JSON content type and a
nonempty body are present (the parse precedes the 204 test and a parse
failure propagates). -/
theorem c5_no_content_success (sc : Int → Option (String × String))
    (parse : String → Option JVal) (method url : String)
    (requestData : Option String) (resp : RawResponse)
    (h204 : resp.status = 204)
    (hparse : (jsonContentType resp && !(resp.text == "")) = true →
      ∃ d, parse resp.text = some d) :
    normalize sc parse method url requestData resp = .ok noContentData := by
  unfold normalize
  by_cases hb : (jsonContentType resp && !(resp.text == "")) = true
  · obtain ⟨d, hd⟩ := hparse hb
    rw [hb, hd]
    simp [h204]
  · rw [Bool.not_eq_true] at hb
    rw [hb]
    simp [h204]

/-- Witness for C5 at a concrete 204 response whose body parses. -/
theorem c5_witness :
    c5OkResp.status = 204 ∧
      normalize (fun _ => none) c5Parse "DELETE"
        "http://localhost:4444/wd/hub/session/1" none c5OkResp = .ok noContentData :=
  ⟨rfl, c5_no_content_success _ _ _ _ _ _ rfl (fun _ => ⟨.obj [], rfl⟩)⟩

/-- C4 counterexample: the claim says a redirect response triggers exactly one
follow-up GET, but `handleResponse` recurses (`.always(handleResponse)`,
Server.js line 44), so a redirect whose follow-up is itself a redirect
triggers two follow-up GETs. -/
theorem c4_counterexample :
    handleAll c4Fetch (fun _ => none) (fun _ => none) "POST" "http://s/session"
      none 5 c4Resp0 = some (["http://s/a", "http://s/b"], .ok noContentData) ∧
      (["http://s/a", "http://s/b"] : List String).length ≠ 1 :=
  ⟨rfl, by decide⟩

/-- C4 (amended): on a 300-399 response with a truthy `Location` header, the
transport issues a follow-up GET to that location and recurses into response
handling on its result; when the follow-up response is not itself such a
redirect, exactly one follow-up GET is issued and the result handed to
normalization is the follow-up response, not the original. -/
theorem c4_single_redirect (fetch : String → RawResponse)
    (sc : Int → Option (String × String)) (parse : String → Option JVal)
    (method url : String) (requestData : Option String) (fuel : Nat)
    (resp : RawResponse) (loc : String)
    (hred : isRedirect resp = true)
    (hloc : resp.location = some loc)
    (hterm : isRedirect (fetch loc) = false) :
    handleAll fetch sc parse method url requestData (fuel + 2) resp =
      some ([loc], normalize sc parse method url requestData (fetch loc)) := by
  unfold handleAll
  rw [hred, hloc]
  simp only [if_true]
  unfold handleAll
  rw [hterm]
  simp

/-- Witness for C4 at a concrete single redirect followed by a terminal 204. -/
theorem c4_witness :
    isRedirect c4RespA = true ∧
      handleAll c4Fetch (fun _ => none) (fun _ => none) "GET" "http://s/session/1"
        none 2 c4RespA = some (["http://s/b"], .ok noContentData) :=
  ⟨rfl, c4_single_redirect c4Fetch _ _ _ _ _ 0 c4RespA "http://s/b" rfl rfl rfl⟩

/-- C2 counterexample: the claim says a failure propagates out of negotiation
exactly when the initial or the trailing blank-page navigation fails, but the
trailing step is attached with `.always` (Server.js line 585), which runs on
rejection too: under an oracle whose initial navigation fails and whose later
calls succeed, negotiation still resolves with the session. -/
theorem c2_counterexample :
    (fixSessionCapabilities c2Oracle 1 7 [] 0).res = .ok 7 ∧
      c2Oracle 0 (.get "about:blank") = .error c2Err :=
  ⟨rfl, rfl⟩

/-- C2 (amended): negotiation's outcome is decided entirely by the trailing
cleanup blank-page navigation — it resolves with the very session id it was
given when that navigation succeeds and rejects with that navigation's error
when it fails; failures of probes, of the merges, and of the initial
navigation are all absorbed by the `always` recovery step, whose navigation is
the last command the negotiation issues. -/
theorem c2_failure_propagation (o : Oracle) (fuel sid : Nat) (caps0 : Caps) (n0 : Nat) :
    ∃ m,
      (fixSessionCapabilities o fuel sid caps0 n0).res =
        (match o m (.get "about:blank") with
         | .ok _ => Except.ok sid
         | .error e => Except.error e) ∧
      ∃ pre, (fixSessionCapabilities o fuel sid caps0 n0).events =
        pre ++ [Ev.cmd m (Cmd.get "about:blank")] := by
  refine ⟨(negotiationMain o fuel caps0 n0).time, ?_, ?_⟩
  · unfold fixSessionCapabilities
    cases h : o (negotiationMain o fuel caps0 n0).time (.get "about:blank") <;> simp [h]
  · refine ⟨(negotiationMain o fuel caps0 n0).events, ?_⟩
    unfold fixSessionCapabilities
    cases h : o (negotiationMain o fuel caps0 n0).time (.get "about:blank") <;> simp [h]

/-- The scan steps over a position that is not a placeholder start. -/
theorem substFirst_skip (pathParts : List String) (a c : Char) (l : List Char)
    (h : (a == '$' && isDigitChar c) = false) :
    substFirst pathParts (a :: c :: l) = a :: substFirst pathParts (c :: l) := by
  simp [substFirst, h]

/-- The scan replaces the placeholder it first reaches. -/
theorem substFirst_hit (pathParts : List String) (c : Char) (l : List Char)
    (hc : isDigitChar c = true) :
    substFirst pathParts ('$' :: c :: l) =
      (encodeURIComponentJS (argStr pathParts c)).data ++ l := by
  simp [substFirst, hc]

/-- C9 counterexample: the claim says every positional placeholder in the path
template is substituted, but `path.replace(/\$(\d)/, ...)` (Server.js line 13)
has no global flag, so only the first `$digit` occurrence is replaced: with
two placeholders the second survives verbatim in the built URL. -/
theorem c9_counterexample :
    (buildRequestUrl "http://localhost:4444/wd/hub/" "session/$0/element/$1"
        ["abc", "def"]).data =
      "http://localhost:4444/wd/hub/session/abc/element/$1".data ∧
      "http://localhost:4444/wd/hub/session/abc/element/$1".data ≠
        "http://localhost:4444/wd/hub/session/abc/element/def".data := by
  constructor
  · decide
  · decide

/-- C9 (amended): only the first positional placeholder occurring in the path
template is replaced — with the percent-encoding of the positional argument
selected by its digit — and everything after it, including any further
placeholders, is copied verbatim. -/
theorem c9_first_placeholder_substituted (pathParts : List String)
    (pre : List Char) (d : Char) (suf : List Char)
    (hpf : pairFree pre = true) (hd : isDigitChar d = true) :
    substFirst pathParts (pre ++ '$' :: d :: suf) =
      pre ++ (encodeURIComponentJS (argStr pathParts d)).data ++ suf := by
  induction pre with
  | nil =>
    rw [List.nil_append, substFirst_hit pathParts d suf hd, List.nil_append]
  | cons a tail ih =>
    cases tail with
    | nil =>
      have h1 : (a == '$' && isDigitChar '$') = false := by
        simp [isDigitChar]
      rw [List.singleton_append, substFirst_skip pathParts a '$' (d :: suf) h1,
        substFirst_hit pathParts d suf hd]
      simp
    | cons b tail' =>
      have hpf' : (a == '$' && isDigitChar b) = false ∧ pairFree (b :: tail') = true := by
        have h := hpf
        unfold pairFree at h
        rw [Bool.and_eq_true, Bool.not_eq_true'] at h
        exact h
      rw [List.cons_append, List.cons_append,
        substFirst_skip pathParts a b (tail' ++ '$' :: d :: suf) hpf'.1,
        ← List.cons_append, ih hpf'.2]
      simp

/-- Witness for C9 at the concrete single-placeholder template
`session/$0`. -/
theorem c9_witness :
    pairFree "session/".data = true ∧
      substFirst ["brianTestingSession"] ("session/".data ++ '$' :: '0' :: []) =
        "session/".data ++
          (encodeURIComponentJS (argStr ["brianTestingSession"] '0')).data ++ [] :=
  ⟨by decide,
   c9_first_placeholder_substituted ["brianTestingSession"] "session/".data '0' []
     (by decide) (by decide)⟩

/-- Overwriting one key leaves every other key's value unchanged. -/
theorem fieldGet_setField_ne (c : List (String × JVal)) (k k' : String) (v : JVal)
    (h : ¬ k' = k) : fieldGet (setField c k v) k' = fieldGet c k' := by
  induction c with
  | nil =>
    simp only [setField, fieldGet]
    rw [if_neg (fun hh => h hh.symm)]
  | cons p rest ih =>
    obtain ⟨k₁, v₁⟩ := p
    by_cases hk : k₁ = k
    · subst hk
      simp only [setField, if_pos rfl, fieldGet]
      rw [if_neg (fun hh => h hh.symm), if_neg (fun hh => h hh.symm)]
    · simp only [setField, if_neg hk, fieldGet]
      by_cases hk' : k₁ = k'
      · rw [if_pos hk', if_pos hk']
      · rw [if_neg hk', if_neg hk', ih]

/-- `addCapabilities` only ever writes keys that appear in its entry list. -/
theorem addCapabilities_capGet_not_mem (o : Oracle) (entries : List (String × AddVal)) :
    ∀ (caps : Caps) (n : Nat) (k' : String), k' ∉ entries.map Prod.fst →
      capGet (addCapabilities o entries caps n).caps k' = capGet caps k' := by
  induction entries with
  | nil => intro caps n k' _; rfl
  | cons p rest ih =>
    intro caps n k' h
    obtain ⟨k, av⟩ := p
    rw [List.map_cons, List.mem_cons, not_or] at h
    cases av with
    | v v =>
      simp only [addCapabilities]
      rw [ih _ _ _ h.2]
      exact fieldGet_setField_ne caps k k' v h.1
    | fn t =>
      simp only [addCapabilities]
      cases ht : t caps n o with
      | mk n' cs res =>
        cases res with
        | ok v =>
          simp only []
          rw [ih _ _ _ h.2]
          exact fieldGet_setField_ne caps k k' v h.1
        | error e => rfl

/-- `addCapabilities` on a concatenation: the second part runs only if the
first part merges cleanly, from the first part's capability map and call
counter, and the traces concatenate. -/
theorem addCapabilities_append (o : Oracle) (l₁ l₂ : List (String × AddVal)) :
    ∀ (caps : Caps) (n : Nat),
      addCapabilities o (l₁ ++ l₂) caps n =
        (let r₁ := addCapabilities o l₁ caps n
         match r₁.res with
         | .ok _ =>
           let r₂ := addCapabilities o l₂ r₁.caps r₁.time
           ⟨r₂.caps, r₂.time, r₁.events ++ r₂.events, r₂.res⟩
         | .error _ => r₁) := by
  induction l₁ with
  | nil => intro caps n; simp [addCapabilities]
  | cons p rest ih =>
    intro caps n
    obtain ⟨k, av⟩ := p
    cases av with
    | v v =>
      simp only [List.cons_append, addCapabilities, List.append_eq]
      rw [ih (setField caps k v) n]
      cases h : (addCapabilities o rest (setField caps k v) n).res <;> simp [h]
    | fn t =>
      simp only [List.cons_append, addCapabilities, List.append_eq]
      cases ht : t caps n o with
      | mk n' cs res =>
        cases res with
        | ok v =>
          dsimp only
          rw [ih (setField caps k v) n']
          cases h : (addCapabilities o rest (setField caps k v) n').res <;> simp [h]
        | error e => simp

/-- C10: merging is not atomic — `addCapabilities` writes one key at a time in
catalog order, so when a Deferred thunk rejects, the merge rejects with
exactly the capabilities written by the earlier entries in place (the map and
trace are those of the prefix), and neither the failing key nor any later key
is ever written: any key outside the prefix still reads its original value. -/
theorem c10_partial_merge (o : Oracle) (pre post : List (String × AddVal))
    (k : String) (t : Prb JVal) (caps : Caps) (n : Nat) (c₁ : Caps) (n₁ : Nat)
    (es₁ : List Ev) (n₂ : Nat) (cs₂ : List (Nat × Cmd)) (e : PErr)
    (hpre : addCapabilities o pre caps n = ⟨c₁, n₁, es₁, .ok ()⟩)
    (ht : t c₁ n₁ o = ⟨n₂, cs₂, .error e⟩) :
    addCapabilities o (pre ++ (k, AddVal.fn t) :: post) caps n =
      ⟨c₁, n₂, es₁ ++ Ev.defStart k :: cmdEvs cs₂, .error e⟩ ∧
    ∀ k', k' ∉ pre.map Prod.fst → capGet c₁ k' = capGet caps k' := by
  constructor
  · rw [addCapabilities_append o pre ((k, AddVal.fn t) :: post) caps n, hpre]
    simp only [addCapabilities, ht]
  · intro k' hk'
    have h := addCapabilities_capGet_not_mem o pre caps n k' hk'
    rw [hpre] at h
    exact h

/-- Witness for C10 at a concrete three-entry batch whose middle Deferred
thunk (a failing `refresh`) rejects. -/
theorem c10_witness :
    addCapabilities c10Oracle c10Pre [] 0 =
      ⟨[("x", JVal.bool true)], 0, [Ev.write "x" (JVal.bool true)], .ok ()⟩ ∧
    Prb.call Cmd.refresh [("x", JVal.bool true)] 0 c10Oracle =
      ⟨1, [(0, Cmd.refresh)], .error c10Err⟩ ∧
    (addCapabilities c10Oracle (c10Pre ++ ("y", AddVal.fn (Prb.call Cmd.refresh)) :: c10Post) [] 0 =
      ⟨[("x", JVal.bool true)], 1,
        [Ev.write "x" (JVal.bool true)] ++ Ev.defStart "y" :: cmdEvs [(0, Cmd.refresh)],
        .error c10Err⟩ ∧
      ∀ k', k' ∉ c10Pre.map Prod.fst →
        capGet [("x", JVal.bool true)] k' = capGet [] k') :=
  ⟨rfl, rfl,
   c10_partial_merge c10Oracle c10Pre c10Post "y" (Prb.call Cmd.refresh) [] 0
     [("x", JVal.bool true)] 0 [Ev.write "x" (JVal.bool true)] 1 [(0, Cmd.refresh)]
     c10Err rfl rfl⟩

/-- Wire-call records are `cmd` events. -/
theorem mem_cmdEvs (e : Ev) (l : List (Nat × Cmd)) (h : e ∈ cmdEvs l) :
    isCmdEv e = true := by
  simp only [cmdEvs, List.mem_map] at h
  obtain ⟨p, -, hp⟩ := h
  rw [← hp]
  rfl

/-- The `whenAll` phase emits no Deferred lifecycle events: Deferred thunks
pass through it unevaluated. -/
theorem whenAllRun_no_def (o : Oracle) (cat : List (String × CatEntry)) :
    ∀ (caps : Caps) (n : Nat), ∀ e ∈ (whenAllRun o cat caps n).events,
      isDefEv e = false := by
  induction cat with
  | nil => intro caps n e he; exact absurd he (List.not_mem_nil e)
  | cons p rest ih =>
    intro caps n e he
    obtain ⟨k, entry⟩ := p
    cases entry with
    | plain v => exact ih caps n e he
    | prom pr =>
      rw [show whenAllRun o ((k, CatEntry.prom pr) :: rest) caps n =
        (match pr caps n o with
         | ⟨n', cs, .ok v⟩ =>
           let r := whenAllRun o rest caps n'
           ⟨caps, r.time, cmdEvs cs ++ Ev.settle k :: r.events,
             r.res.map (fun l => (k, AddVal.v v) :: l)⟩
         | ⟨n', cs, .error e⟩ => ⟨caps, n', cmdEvs cs, .error e⟩) from rfl] at he
      cases hp : pr caps n o with
      | mk n' cs res =>
        rw [hp] at he
        cases res with
        | ok v =>
          simp only [List.mem_append, List.mem_cons] at he
          rcases he with hc | hs | hr
          · cases e <;> first | rfl | exact absurd (mem_cmdEvs _ _ hc) (by simp [isCmdEv])
          · rw [hs]; rfl
          · exact ih caps n' e hr
        | error e' =>
          cases e <;> first | rfl | exact absurd (mem_cmdEvs _ _ he) (by simp [isCmdEv])
    | thunk t => exact ih caps n e he

/-- The serial `addCapabilities` phase emits no settle events: Immediate
probes have already settled inside `whenAll` by the time it runs. -/
theorem addCapabilities_no_settle (o : Oracle) (entries : List (String × AddVal)) :
    ∀ (caps : Caps) (n : Nat), ∀ e ∈ (addCapabilities o entries caps n).events,
      isSettleEv e = false := by
  induction entries with
  | nil => intro caps n e he; exact absurd he (List.not_mem_nil e)
  | cons p rest ih =>
    intro caps n e he
    obtain ⟨k, av⟩ := p
    cases av with
    | v v =>
      simp only [addCapabilities, List.mem_cons] at he
      rcases he with hw | hr
      · rw [hw]; rfl
      · exact ih _ _ e hr
    | fn t =>
      simp only [addCapabilities] at he
      cases ht : t caps n o with
      | mk n' cs res =>
        rw [ht] at he
        cases res with
        | ok v =>
          simp only [List.mem_cons, List.mem_append] at he
          rcases he with hs | hc | hs' | hs'' | hr
          · rw [hs]; rfl
          · cases e <;> first | rfl | exact absurd (mem_cmdEvs _ _ hc) (by simp [isCmdEv])
          · rw [hs']; rfl
          · rw [hs'']; rfl
          · exact ih _ _ e hr
        | error e' =>
          simp only [List.mem_cons] at he
          rcases he with hs | hc
          · rw [hs]; rfl
          · cases e <;> first | rfl | exact absurd (mem_cmdEvs _ _ hc) (by simp [isCmdEv])

/-- Wire-call records carry no Deferred lifecycle events. -/
theorem filter_isDefEv_cmdEvs (l : List (Nat × Cmd)) :
    (cmdEvs l).filter isDefEv = [] := by
  induction l with
  | nil => rfl
  | cons p rest ih =>
    rw [show cmdEvs (p :: rest) = Ev.cmd p.1 p.2 :: cmdEvs rest from rfl,
      List.filter_cons_of_neg (by simp [isDefEv])]
    exact ih

/-- In any run of `addCapabilities`, the Deferred lifecycle events form the
strictly serialized `start, end` sequence over the batch's Deferred keys in
catalog order, truncated at the first rejecting thunk. -/
theorem addCapabilities_serialized (o : Oracle) (entries : List (String × AddVal)) :
    ∀ (caps : Caps) (n : Nat),
      serTrace (defKeys entries)
        ((addCapabilities o entries caps n).events.filter isDefEv) = true := by
  induction entries with
  | nil => intro caps n; rfl
  | cons p rest ih =>
    intro caps n
    obtain ⟨k, av⟩ := p
    cases av with
    | v v =>
      simp only [addCapabilities, defKeys, List.filter_cons]
      norm_num [isDefEv]
      exact ih _ _
    | fn t =>
      simp only [addCapabilities, defKeys]
      cases ht : t caps n o with
      | mk n' cs res =>
        cases res with
        | ok v =>
          dsimp only
          rw [List.filter_cons_of_pos (by rfl), List.filter_append,
            filter_isDefEv_cmdEvs, List.filter_cons_of_pos (by rfl),
            List.filter_cons_of_neg (by simp [isDefEv]), List.nil_append]
          simp only [serTrace, beq_self_eq_true, Bool.true_and]
          exact ih _ _
        | error e =>
          dsimp only
          rw [List.filter_cons_of_pos (by rfl), filter_isDefEv_cmdEvs]
          simp [serTrace]

/-- In a trace with no Deferred starts on the left of the seam and no settles
on the right, every settle index precedes every Deferred-start index. -/
theorem settle_before_def (es₁ es₂ : List Ev)
    (h₁ : ∀ e ∈ es₁, isDefEv e = false)
    (h₂ : ∀ e ∈ es₂, isSettleEv e = false) :
    ∀ i j k k', (es₁ ++ es₂).get? i = some (.settle k) →
      (es₁ ++ es₂).get? j = some (.defStart k') → i < j := by
  intro i j k k' hi hj
  rcases Nat.lt_or_ge i es₁.length with hilt | hige
  · rcases Nat.lt_or_ge j es₁.length with hjlt | hjge
    · exfalso
      rw [List.get?_append hjlt] at hj
      have := h₁ _ (List.get?_mem hj)
      simp [isDefEv] at this
    · exact Nat.lt_of_lt_of_le hilt hjge
  · exfalso
    rw [List.get?_append_right hige] at hi
    have := h₂ _ (List.get?_mem hi)
    simp [isSettleEv] at this

/-- C1: for any negotiation batch run through the engine — the `whenAll` phase
settling every Immediate probe, then `addCapabilities` walking the resolved
entries — every Immediate-probe settle event precedes every Deferred-probe
start event, and the Deferred probes run strictly one at a time in catalog
(key) order, each completing before the next begins. -/
theorem c1_batch_discipline (o : Oracle) (cat : List (String × CatEntry))
    (caps : Caps) (n : Nat) (entries : List (String × AddVal))
    (h : (whenAllRun o cat caps n).res = .ok entries) :
    ∀ (caps₂ : Caps) (n₂ : Nat),
      (∀ i j k k',
        ((whenAllRun o cat caps n).events ++
          (addCapabilities o entries caps₂ n₂).events).get? i = some (.settle k) →
        ((whenAllRun o cat caps n).events ++
          (addCapabilities o entries caps₂ n₂).events).get? j = some (.defStart k') →
        i < j) ∧
      serTrace (defKeys entries)
        ((addCapabilities o entries caps₂ n₂).events.filter isDefEv) = true := by
  intro caps₂ n₂
  refine ⟨settle_before_def _ _ (whenAllRun_no_def o cat caps n)
    (addCapabilities_no_settle o entries caps₂ n₂), addCapabilities_serialized o entries caps₂ n₂⟩

/-- Witness for C1 at a concrete batch of one Immediate probe and one Deferred
thunk under an all-succeeding oracle. -/
theorem c1_witness :
    (whenAllRun allOkOracle c1Cat [] 0).res = .ok c1Entries ∧
      ((∀ i j k k',
        ((whenAllRun allOkOracle c1Cat [] 0).events ++
          (addCapabilities allOkOracle c1Entries [] 1).events).get? i = some (.settle k) →
        ((whenAllRun allOkOracle c1Cat [] 0).events ++
          (addCapabilities allOkOracle c1Entries [] 1).events).get? j = some (.defStart k') →
        i < j) ∧
      serTrace (defKeys c1Entries)
        ((addCapabilities allOkOracle c1Entries [] 1).events.filter isDefEv) = true) :=
  ⟨rfl, c1_batch_discipline allOkOracle c1Cat [] 0 c1Entries rfl [] 1⟩

/-- Merging a hardcoded (all-plain) result set writes each key in order,
issues no commands, advances no call counter, and cannot fail. -/
theorem addCapabilities_pureEntries (o : Oracle) (l : List (String × JVal)) :
    ∀ (caps : Caps) (n : Nat),
      addCapabilities o (pureEntries l) caps n =
        ⟨insertList caps l, n, writeEvs l, .ok ()⟩ := by
  induction l with
  | nil => intro caps n; rfl
  | cons p rest ih =>
    intro caps n
    obtain ⟨k, v⟩ := p
    rw [show pureEntries ((k, v) :: rest) = (k, AddVal.v v) :: pureEntries rest from rfl]
    simp only [addCapabilities, ih]
    rfl

/-- Inserting a result set leaves every key outside it unchanged. -/
theorem capGet_insertList_not_mem (l : List (String × JVal)) :
    ∀ (c : Caps) (k : String), k ∉ l.map Prod.fst →
      capGet (insertList c l) k = capGet c k := by
  induction l with
  | nil => intro c k _; rfl
  | cons p rest ih =>
    intro c k h
    rw [List.map_cons, List.mem_cons, not_or] at h
    rw [show insertList c (p :: rest) = insertList (setField c p.1 p.2) rest from rfl,
      ih _ _ h.2]
    exact fieldGet_setField_ne c p.1 k p.2 h.1

/-- Capability writes are not wire commands. -/
theorem filter_isCmdEv_writeEvs (l : List (String × JVal)) :
    (writeEvs l).filter isCmdEv = [] := by
  induction l with
  | nil => rfl
  | cons p rest ih =>
    rw [show writeEvs (p :: rest) = Ev.write p.1 p.2 :: writeEvs rest from rfl,
      List.filter_cons_of_neg (by simp [isCmdEv])]
    exact ih

set_option maxHeartbeats 1000000 in
/-- C6: when the server-reported capabilities identify SafariDriver on Mac
(`browserName` exactly `"safari"`, `platform` exactly `"MAC"`), negotiation
runs no live probes — its only wire commands are the two blank-page
navigations — and the session's capability map ends as the initial map with
exactly the hardcoded feature result set and then the hardcoded defect result
set merged in. -/
theorem c6_safari_hardcoded (o : Oracle) (fuel sid : Nat) (caps0 : Caps)
    (n0 : Nat) (v : JVal)
    (hb : capGet caps0 "browserName" = JVal.str "safari")
    (hp : capGet caps0 "platform" = JVal.str "MAC")
    (hnav : o n0 (Cmd.get "about:blank") = .ok v) :
    (fixSessionCapabilities o fuel sid caps0 n0).caps =
      insertList (insertList caps0 safariFeatureCaps) safariDefectCaps ∧
    (fixSessionCapabilities o fuel sid caps0 n0).events.filter isCmdEv =
      [Ev.cmd n0 (Cmd.get "about:blank"), Ev.cmd (n0 + 1) (Cmd.get "about:blank")] := by
  have hq : safariQuirk caps0 = true := by
    unfold safariQuirk
    rw [hb, hp]
    rfl
  have hq2 : safariQuirk (insertList caps0 safariFeatureCaps) = true := by
    unfold safariQuirk
    rw [capGet_insertList_not_mem safariFeatureCaps caps0 "browserName" (by decide),
      capGet_insertList_not_mem safariFeatureCaps caps0 "platform" (by decide), hb, hp]
    rfl
  have hmain : negotiationMain o fuel caps0 n0 =
      ⟨insertList (insertList caps0 safariFeatureCaps) safariDefectCaps, n0 + 1,
        Ev.cmd n0 (Cmd.get "about:blank") ::
          (writeEvs safariFeatureCaps ++ writeEvs safariDefectCaps), .ok ()⟩ := by
    unfold negotiationMain
    rw [hnav]
    simp only [discoverFeatures, discoverDefects, hq, if_true,
      addCapabilities_pureEntries, hq2]
    simp [addCapabilities_pureEntries]
  have hfix : fixSessionCapabilities o fuel sid caps0 n0 =
      (match o (n0 + 1) (Cmd.get "about:blank") with
       | .ok _ =>
         ⟨insertList (insertList caps0 safariFeatureCaps) safariDefectCaps, n0 + 1 + 1,
           (Ev.cmd n0 (Cmd.get "about:blank") ::
             (writeEvs safariFeatureCaps ++ writeEvs safariDefectCaps)) ++
             [Ev.cmd (n0 + 1) (Cmd.get "about:blank")], .ok sid⟩
       | .error e =>
         ⟨insertList (insertList caps0 safariFeatureCaps) safariDefectCaps, n0 + 1 + 1,
           (Ev.cmd n0 (Cmd.get "about:blank") ::
             (writeEvs safariFeatureCaps ++ writeEvs safariDefectCaps)) ++
             [Ev.cmd (n0 + 1) (Cmd.get "about:blank")], .error e⟩) := by
    unfold fixSessionCapabilities
    rw [hmain]
  constructor
  · rcases h2 : o (n0 + 1) (Cmd.get "about:blank") with v2 | e2 <;>
      simp [hfix, h2]
  · rcases h2 : o (n0 + 1) (Cmd.get "about:blank") with v2 | e2 <;>
      simp [hfix, h2, List.filter_append, filter_isCmdEv_writeEvs, isCmdEv]

/-- Witness for C6 at the concrete Safari-on-Mac capability map under an
all-succeeding oracle. -/
theorem c6_witness :
    capGet c6Caps "browserName" = JVal.str "safari" ∧
      ((fixSessionCapabilities allOkOracle 0 1 c6Caps 0).caps =
        insertList (insertList c6Caps safariFeatureCaps) safariDefectCaps ∧
      (fixSessionCapabilities allOkOracle 0 1 c6Caps 0).events.filter isCmdEv =
        [Ev.cmd 0 (Cmd.get "about:blank"), Ev.cmd 1 (Cmd.get "about:blank")]) :=
  ⟨rfl, c6_safari_hardcoded allOkOracle 0 1 c6Caps 0 JVal.null rfl rfl rfl⟩

/-- A probe wrapped in `.otherwise` with a constant fallback never rejects. -/
theorem otherwiseP_pure_res (p : Prb JVal) (w : JVal) (c : Caps) (n : Nat) (o : Oracle) :
    ∃ v, (Prb.otherwiseP p (fun _ => Prb.pureP w) c n o).res = .ok v := by
  unfold Prb.otherwiseP Prb.thenBoth
  cases hp : p c n o with
  | mk n' cs res =>
    cases res with
    | ok a => exact ⟨a, rfl⟩
    | error e => exact ⟨w, rfl⟩

/-- `brokenDoubleClick` at positive fuel always resolves (every failure is
converted to a verdict by its own `.otherwise(broken)`). -/
theorem brokenDoubleClickThunk_res_ok (fuel : Nat) (c : Caps) (n : Nat) (o : Oracle) :
    ∃ v, (brokenDoubleClickThunk (fuel + 1) c n o).res = .ok v :=
  otherwiseP_pure_res _ _ c n o

/-- C8: one step of the `brokenDoubleClick` probe.  When the
navigate-and-measure round observes a counter of exactly 0, the probe retries:
its run is the round's commands followed by a fresh full run from the round's
end state (no verdict is produced from the zero reading).  A verdict is
produced exactly from a nonzero counter reading (`counter !== 6`) or from an
operation failure (broken, i.e. `true`). -/
theorem c8_retry_on_zero (caps : Caps) (o : Oracle) (n : Nat) (fuel : Nat)
    (n' : Nat) (cs : List (Nat × Cmd)) (r : Except PErr JVal)
    (h : doubleClickRound caps n o = ⟨n', cs, r⟩) :
    (∀ v, r = .ok v → jsStrictEq v (.num 0) = true →
      brokenDoubleClickThunk (fuel + 2) caps n o =
        (let t := brokenDoubleClickThunk (fuel + 1) caps n' o
         ⟨t.time, cs ++ t.calls, t.res⟩)) ∧
    (∀ v, r = .ok v → jsStrictEq v (.num 0) = false →
      brokenDoubleClickThunk (fuel + 1) caps n o =
        ⟨n', cs, .ok (.bool (!jsStrictEq v (.num 6)))⟩) ∧
    (∀ e, r = .error e →
      brokenDoubleClickThunk (fuel + 1) caps n o = ⟨n', cs, .ok (.bool true)⟩) := by
  refine ⟨?_, ?_, ?_⟩
  · intro v hr hv
    subst hr
    obtain ⟨w, hw⟩ := brokenDoubleClickThunk_res_ok fuel caps n' o
    have hstep : brokenDoubleClickThunk (fuel + 2) caps n o =
        Prb.otherwiseP
          (Prb.bindP doubleClickRound (fun counter =>
            if jsStrictEq counter (.num 0) then brokenDoubleClickThunk (fuel + 1)
            else Prb.pureP (.bool (!jsStrictEq counter (.num 6)))))
          (fun _ => Prb.pureP (.bool true)) caps n o := rfl
    rw [hstep]
    unfold Prb.otherwiseP Prb.thenBoth Prb.bindP
    rw [h]
    simp only [hv, if_true]
    cases hb : brokenDoubleClickThunk (fuel + 1) caps n' o with
    | mk bn bcs bres =>
      rw [hb] at hw
      dsimp only at hw ⊢
      rw [hw]
      simp [Prb.pureP]
  · intro v hr hv
    subst hr
    have hstep : brokenDoubleClickThunk (fuel + 1) caps n o =
        Prb.otherwiseP
          (Prb.bindP doubleClickRound (fun counter =>
            if jsStrictEq counter (.num 0) then brokenDoubleClickThunk fuel
            else Prb.pureP (.bool (!jsStrictEq counter (.num 6)))))
          (fun _ => Prb.pureP (.bool true)) caps n o := rfl
    rw [hstep]
    unfold Prb.otherwiseP Prb.thenBoth Prb.bindP
    rw [h]
    simp [hv, Prb.pureP]
  · intro e hr
    subst hr
    have hstep : brokenDoubleClickThunk (fuel + 1) caps n o =
        Prb.otherwiseP
          (Prb.bindP doubleClickRound (fun counter =>
            if jsStrictEq counter (.num 0) then brokenDoubleClickThunk fuel
            else Prb.pureP (.bool (!jsStrictEq counter (.num 6)))))
          (fun _ => Prb.pureP (.bool true)) caps n o := rfl
    rw [hstep]
    unfold Prb.otherwiseP Prb.thenBoth Prb.bindP
    rw [h]
    simp [Prb.pureP]

/-- Witness for C8 at a concrete run whose counter reads 3: the verdict is
`3 !== 6`, i.e. broken. -/
theorem c8_witness :
    doubleClickRound [] 0 c8Oracle = ⟨6, c8Calls, .ok (.num 3)⟩ ∧
      brokenDoubleClickThunk 1 [] 0 c8Oracle = ⟨6, c8Calls, .ok (.bool true)⟩ :=
  ⟨rfl,
   (c8_retry_on_zero [] c8Oracle 0 0 6 c8Calls (.ok (.num 3)) rfl).2.1 (.num 3) rfl rfl⟩

end Leadfoot
